import Mathlib

/-!
Verification development for the surf HTTP client pipeline.

The embedding models the middleware chain core (`src/src/middleware/mod.rs`,
`src/src/client.rs`), the redirect middleware
(`src/src/middleware/redirect/mod.rs`), the compression middleware
(`src/src/middleware/compression/compression.rs`) and the cache middleware
(`src/src/cache.rs`).  Asynchronous execution is collapsed to sequential
evaluation; the wire transport, the cacache store, the url parser and the
compression codecs are external collaborators and are modelled as explicit
parameters or small functions, each documented at its definition.

Observable behaviour is tracked with an instrumentation trace (`Ev`): the
terminal transport call, the markers of generic middleware, and cache store
lookups and writes.  Effects are values of `Eff`: a trace together with an
`Except` result; a Rust `panic!` is modelled as the distinguished error
`Err.panicked`, keeping it apart from typed errors that middleware return.
-/

namespace Surf

/-- Errors of the model.  `panicked` stands for a Rust `panic!` (a process
abort), all other constructors are typed errors that are returned to the
caller through `Result`. -/
inductive Err where
  | panicked (msg : String)
  | relativeUrlWithoutBase (s : String)
  | parseIntFailure
  | unsupportedContentEncoding
  | transportFailure (msg : String)
  | outOfGas
  deriving DecidableEq, Repr

/-- Header multimap: insertion-ordered list of (name, value) pairs.  The
`http`/`http-types` crates normalize header names to lower case on entry, so
names are stored lower-case here. -/
abbrev Headers := List (String × String)

/-- First value for a name, as `HeaderMap::get` of the `http` crate. -/
def headerFirst (name : String) (hs : Headers) : Option String :=
  (List.find? (fun kv => kv.1 == name) hs).map (fun kv => kv.2)

/-- All values for a name, in insertion order, as surf's `Request::header`
returning `HeaderValues`. -/
def headerAll (name : String) (hs : Headers) : List String :=
  List.filterMap (fun kv => if kv.1 == name then some kv.2 else none) hs

/-- Remove every value of a name, as `HeaderMap::remove` /
`http_types::Headers::remove`. -/
def headerRemove (name : String) (hs : Headers) : Headers :=
  List.filter (fun kv => !(kv.1 == name)) hs

/-- `HeaderMap::insert`: replaces all previous values of the name with the
single given value. -/
def headerInsert (name value : String) (hs : Headers) : Headers :=
  headerRemove name hs ++ [(name, value)]

/-- Insert each pair of `extra` into `hs`, replacing previous values
(`for (key, value) in self.headers.iter() { headers.insert(key, *value) }`,
src/src/cache.rs lines 188-190). -/
def insertAll (extra : List (String × String)) (hs : Headers) : Headers :=
  List.foldl (fun acc kv => headerInsert kv.1 kv.2 acc) hs extra

/-- Last element of a non-empty list given by head and tail
(`HeaderValues::last`). -/
def lastOf (v : String) : List String → String
  | [] => v
  | w :: ws => lastOf w ws

/-- An HTTP request: method, target URL, headers, body bytes.  The body is a
byte list; the read-at-most-once streaming discipline is not needed by the
claims settled here. -/
structure Request where
  method : String
  url : String
  headers : Headers
  body : List Nat
  deriving DecidableEq, Repr

/-- An HTTP response: status code, headers, body bytes. -/
structure Response where
  status : Nat
  headers : Headers
  body : List Nat
  deriving DecidableEq, Repr

/-- Instrumentation events.  `transport` is emitted by the terminal endpoint
of the chain, `enter`/`leave` by the generic wrapping middleware, the cache
events by the cache store, `remote` by the cache middleware's own network
path. -/
inductive Ev where
  | enter (name : String)
  | leave (name : String)
  | transport (url : String)
  | cacheLookup (key : String)
  | cachePut (key : String)
  | remote (url : String)
  deriving DecidableEq, Repr

instance {ε α : Type} [DecidableEq ε] [DecidableEq α] :
    DecidableEq (Except ε α) := fun a b =>
  match a, b with
  | .ok a, .ok b => decidable_of_iff (a = b) (by simp)
  | .error e, .error f => decidable_of_iff (e = f) (by simp)
  | .ok _, .error _ => isFalse (fun h => Except.noConfusion h)
  | .error _, .ok _ => isFalse (fun h => Except.noConfusion h)

/-- An effect: the instrumentation trace produced so far together with the
result.  Sequencing is `Eff.bind`; a failing step keeps the trace produced up
to the failure. -/
structure Eff (α : Type) where
  trace : List Ev
  result : Except Err α
  deriving DecidableEq, Repr

def Eff.pure {α : Type} (a : α) : Eff α := ⟨[], .ok a⟩

def Eff.fail {α : Type} (e : Err) : Eff α := ⟨[], .error e⟩

def Eff.bind {α β : Type} (x : Eff α) (f : α → Eff β) : Eff β :=
  match x.result with
  | .error e => ⟨x.trace, .error e⟩
  | .ok a => ⟨x.trace ++ (f a).trace, (f a).result⟩

/-- Number of terminal transport calls recorded in a trace. -/
def countTransport (tr : List Ev) : Nat :=
  (tr.filter (fun e => match e with | .transport _ => true | _ => false)).length

/-- The transport capability (`HttpClient::send` behind `Arc<dyn HttpClient>`):
one request in, one response or error out.  External collaborator, supplied
as a function. -/
def Transport := Request → Except Err Response

/-- Redirect status codes accepted by the redirect middleware
(`REDIRECT_CODES`, src/src/middleware/redirect/mod.rs lines 20-26). -/
def redirectCodes : List Nat := [301, 302, 303, 307, 308]

/-- Scheme characters of a URI scheme (RFC 3986: ALPHA / DIGIT / + / - / .). -/
def isSchemeChar (c : Char) : Bool :=
  c.isAlpha || c.isDigit || c == '+' || c == '-' || c == '.'

/-- Scan for a scheme terminated by a colon: every character before the colon
must be a scheme character. -/
def schemeThenColon : List Char → Bool
  | [] => false
  | c :: cs => if c = ':' then true else isSchemeChar c && schemeThenColon cs

/-- Whether a string is an absolute URL, i.e. starts with a scheme (leading
letter, then scheme characters) followed by a colon.  Modelled library call:
`url::Url::parse` (the url crate, an external collaborator) succeeds on
absolute URLs and fails with `RelativeUrlWithoutBase` on relative references;
URL normalization is not modelled, a parsed URL is kept as its input
string. -/
def isAbsoluteUrl (s : String) : Bool :=
  match s.toList with
  | [] => false
  | c :: cs => c.isAlpha && schemeThenColon cs

/-- Modelled library call: `url::Url::parse` (see `isAbsoluteUrl`). -/
def urlParse (s : String) : Except Err String :=
  if isAbsoluteUrl s then .ok s else .error (.relativeUrlWithoutBase s)

/-- `http::Method::is_safe`: GET, HEAD, OPTIONS and TRACE are safe. -/
def isSafeMethod (m : String) : Bool :=
  m == "GET" || m == "HEAD" || m == "OPTIONS" || m == "TRACE"

/-- Split a character list at a separator, as Rust's `str::split`: the result
always has one piece more than there are separators (an empty input gives one
empty piece). -/
def splitOnChar (sep : Char) : List Char → List (List Char)
  | [] => [[]]
  | c :: rest =>
    if c = sep then [] :: splitOnChar sep rest
    else
      match splitOnChar sep rest with
      | [] => [[c]]
      | g :: gs => (c :: g) :: gs

/-- ASCII whitespace (Rust's `str::trim` trims Unicode whitespace; the header
values concerned are ASCII). -/
def isWhite (c : Char) : Bool :=
  c = ' ' || c = '\t' || c = '\n' || c = '\r'

/-- Trim leading and trailing whitespace from a character list
(`str::trim`). -/
def trimChars (cs : List Char) : List Char :=
  ((cs.dropWhile isWhite).reverse.dropWhile isWhite).reverse

/-- `value.split(',').map(str::trim)` on a header value. -/
def splitCommaTrim (s : String) : List String :=
  (splitOnChar ',' s.toList).map (fun cs => String.mk (trimChars cs))

/-- ASCII lower-casing of a string (`str::to_lowercase`; header names are
ASCII). -/
def asciiLower (s : String) : String :=
  String.mk (s.toList.map Char.toLower)

/-- Numeric value of a list of decimal digits. -/
def digitsVal (cs : List Char) : Nat :=
  cs.foldl (fun acc c => acc * 10 + (c.toNat - 48)) 0

/-- The middleware shapes needed by the claims.

* `wrap name pre post` models an arbitrary interceptor that transforms the
  request, delegates to `next.run` exactly once and transforms the response
  (the generic shape of `Middleware::handle` implementations that cooperate
  with the chain; the `enter`/`leave` markers realize the side-effect markers
  of the spec's chain-ordering test).
* `redirect attempts` is the `Redirect` middleware of
  src/src/middleware/redirect/mod.rs.
* `doubler` is the `Doubler` middleware of src/examples/next_reuse.rs, which
  deliberately runs the remaining chain twice. -/
inductive Middleware where
  | wrap (name : String) (pre : Request → Request) (post : Response → Response)
  | redirect (attempts : Nat)
  | doubler

/-- A `Client`: the ordered middleware stack plus the shared transport handle
(src/src/client.rs lines 43-55; `base_url` is irrelevant to the claims). -/
structure Client where
  middleware : List Middleware
  transport : Transport

/-- The remainder of a middleware chain, including the endpoint
(src/src/middleware/mod.rs lines 132-138). -/
structure Next where
  next_middleware : List Middleware
  endpoint : Request → Client → Eff Response

/-- The terminal endpoint built by `Client::send` (src/src/client.rs lines
239-244): it performs the transport call of the *client argument* that was
passed down the chain.  Emits a `transport` event. -/
def endpoint (req : Request) (client : Client) : Eff Response :=
  ⟨[Ev.transport req.url], client.transport req⟩

/-- The redirect probe loop (src/src/middleware/redirect/mod.rs lines 94-105):
`while redirect_count < self.attempts` — each iteration clones the request,
sends the clone through `client.send`, and on a redirect status replaces the
request URL with the parsed `Location` header (last value); a non-redirect
status breaks the loop.  `sendFn` is the `Client::send` capability of the
client argument; the recursion is on the remaining attempt budget.  Returns
the (possibly rewritten) request to hand to the rest of the chain. -/
def redirectLoop (sendFn : Client → Request → Eff Response) :
    Nat → Request → Client → Eff Request
  | 0, req, _ => Eff.pure req
  | n + 1, req, client =>
    Eff.bind (sendFn client req) fun res =>
      if redirectCodes.contains res.status then
        match headerAll "location" res.headers with
        | [] => redirectLoop sendFn n req client
        | v :: vs =>
          match urlParse (lastOf v vs) with
          | .ok u => redirectLoop sendFn n { req with url := u } client
          | .error e => Eff.fail e
      else Eff.pure req

/-- The behaviour of one middleware given the continuation `runRest` for the
rest of the chain (the body of each `Middleware::handle`):

* `wrap`: records `enter`, delegates once to the continuation on the
  transformed request, and on success records `leave` and transforms the
  response (`let res = next.run(pre req, client).await?; Ok(post res)`).
* `redirect` (src/src/middleware/redirect/mod.rs lines 77-108): runs the
  probe loop with `client.send`, then `Ok(next.run(req, client).await?)`.
* `doubler` (src/examples/next_reuse.rs lines 10-42): for a safe method runs
  the continuation on the request and again on a body-less copy, returning
  the second response carrying both bodies concatenated; otherwise delegates
  once.  (`futures::join` is sequenced left to right here.) -/
def handleWith (sendFn : Client → Request → Eff Response) (m : Middleware)
    (req : Request) (client : Client)
    (runRest : Request → Client → Eff Response) : Eff Response :=
  match m with
  | .wrap name pre post =>
    let inner := runRest (pre req) client
    match inner.result with
    | .ok res => ⟨Ev.enter name :: (inner.trace ++ [Ev.leave name]), .ok (post res)⟩
    | .error e => ⟨Ev.enter name :: inner.trace, .error e⟩
  | .redirect attempts =>
    Eff.bind (redirectLoop sendFn attempts req client) fun req' =>
      runRest req' client
  | .doubler =>
    if isSafeMethod req.method then
      Eff.bind (runRest req client) fun res1 =>
        Eff.bind (runRest { req with body := [] } client) fun res2 =>
          Eff.pure { res2 with body := res1.body ++ res2.body }
    else
      runRest req client

/-- `Next::run` (src/src/middleware/mod.rs lines 167-174) over the list view:
if the remaining slice is non-empty, split off the first middleware and hand
it the narrowed rest; if empty, invoke the terminal endpoint.  `sendFn`
interprets the `Client::send` capability used by middleware that re-enter the
client (the redirect probes). -/
def runList (sendFn : Client → Request → Eff Response) :
    List Middleware → (Request → Client → Eff Response) →
    Request → Client → Eff Response
  | [], ep, req, client => ep req client
  | m :: rest, ep, req, client =>
    handleWith sendFn m req client (runList sendFn rest ep)

/-- `Next::run` on the `Next` view. -/
def Next.run (sendFn : Client → Request → Eff Response) (next : Next)
    (req : Request) (client : Client) : Eff Response :=
  runList sendFn next.next_middleware next.endpoint req client

/-- `Middleware::handle`: one middleware applied with a `Next` continuation. -/
def Middleware.handle (sendFn : Client → Request → Eff Response)
    (m : Middleware) (req : Request) (client : Client) (next : Next) :
    Eff Response :=
  handleWith sendFn m req client (Next.run sendFn next)

/-- The effective middleware stack of a single send (src/src/client.rs lines
229-237): the client's own stack followed by the request-scoped middleware
when present.  `Modelled from the spec:` `Request::take_middleware` itself is
not in src/ (only its call site in `Client::send` is); per the spec, a request
optionally carries its own middleware list which is merged after the client
middleware, in that order. -/
def effectiveStack (client : Client) (reqMw : Option (List Middleware)) :
    List Middleware :=
  match reqMw with
  | some req_mw => client.middleware ++ req_mw
  | none => client.middleware

/-- The middleware-erased client handed into the chain (src/src/client.rs
lines 246-252): same transport handle, empty middleware stack. -/
def eraseMiddleware (client : Client) : Client :=
  { middleware := [], transport := client.transport }

/-- `Client::send` (src/src/client.rs lines 224-256): build the effective
stack, construct a `Next` whose terminal function performs the transport
call, and drive it with the middleware-erased client.  `gas` bounds the
nesting depth of re-entrant `client.send` calls made by middleware (needed
for totality only; every claim is settled with ample gas). -/
def Client.send : Nat → Client → Option (List Middleware) → Request → Eff Response
  | 0, _, _, _ => Eff.fail .outOfGas
  | gas + 1, client, reqMw, req =>
    runList (fun c r => Client.send gas c none r)
      (effectiveStack client reqMw) endpoint req (eraseMiddleware client)

/-! ## Cache middleware (src/src/cache.rs) -/

/-- Cache modes, based on the `fetch()` cache modes
(src/src/cache.rs lines 34-43). -/
inductive CacheMode where
  | Default
  | NoStore
  | NoCache
  | Reload
  | ForceCache
  | OnlyIfCached
  deriving DecidableEq, Repr

/-- The conditional request header names checked by `has_cond_header`
(src/src/cache.rs lines 14-20). -/
def condHeaderNames : List String :=
  ["if-modified-since", "if-none-match", "if-unmodified-since", "if-match",
   "if-range"]

/-- `has_cond_header` (src/src/cache.rs lines 11-28): whether any header name,
lower-cased, is one of the conditional header names. -/
def has_cond_header (hs : Headers) : Bool :=
  hs.any fun kv => condHeaderNames.contains (asciiLower kv.1)

/-- `cache_key` (src/src/cache.rs lines 30-32):
`format!("surf:req:v1:{}", req.uri())`. -/
def cache_key (req : Request) : String :=
  "surf:req:v1:" ++ req.url

/-- A persisted cache entry: the metadata document (status and headers) plus
the content-addressed body blob (src/src/cache.rs lines 77-101). -/
structure CacheEntry where
  status : Nat
  headers : Headers
  body : List Nat
  deriving DecidableEq, Repr

/-- The entry persisted by `Cacache::put` for a response (src/src/cache.rs
lines 77-101): status, headers, body bytes. -/
def entryOf (res : Response) : CacheEntry :=
  ⟨res.status, res.headers, res.body⟩

/-- The response rebuilt from a stored entry by `Cacache::matched`
(src/src/cache.rs lines 52-71): status and headers from the metadata, body
from the blob. -/
def responseOfEntry (e : CacheEntry) : Response :=
  ⟨e.status, e.headers, e.body⟩

/-- The external cacache store, modelled as an association list from cache
keys to entries (`cacache::get::info` / `cacache::put`, external
collaborator). -/
abbrev Store := List (String × CacheEntry)

/-- `Cacache::matched` (src/src/cache.rs lines 52-71): look the canonical key
up in the store and rebuild the stored response. -/
def matched (store : Store) (req : Request) : Option Response :=
  ((List.find? (fun kv => kv.1 == cache_key req) store).map
    (fun kv => responseOfEntry kv.2))

/-- `request_cacheable` (src/src/cache.rs lines 110-115): only GET/HEAD
requests outside the NoStore and Reload modes are candidates.  `mode` is
`self.cache_mode` at the call, i.e. after the conditional-header coercion. -/
def request_cacheable (mode : CacheMode) (req : Request) : Bool :=
  (req.method == "GET" || req.method == "HEAD")
    && !(mode == CacheMode.NoStore) && !(mode == CacheMode.Reload)

/-- `Modelled from the spec:` `response_cacheable` is `unimplemented!()` in
src/src/cache.rs lines 117-119; the spec requires persisting a response only
for a 2xx status with no explicit `no-store` directive, and the `NoStore`
mode must prevent cache writes (spec sections 3 CacheMode and 4.2 step 5). -/
def response_cacheable (mode : CacheMode) (res : Response) : Bool :=
  !(mode == CacheMode.NoStore) && 200 ≤ res.status && res.status < 300
    && !((headerAll "cache-control" res.headers).any fun v =>
          (splitCommaTrim v).contains "no-store")

/-- `Modelled from the spec:` `set_warning` is `unimplemented!()` in
src/src/cache.rs lines 125-146; per its comment block it appends a `Warning`
header `warn-code SP warn-agent SP warn-text`. -/
def set_warning (res : Response) (code : Nat) (msg : String) : Response :=
  { res with
    headers := res.headers ++ [("warning", toString code ++ " - " ++ msg)] }

/-- The Warning-header handling on a cache hit (src/src/cache.rs lines
196-222): read the first `warning` header value, parse its leading decimal
digits as a `u32` warn-code (a failing parse propagates with `?`), and when
the code is in the 1xx range remove every `warning` header.  The source notes
`TODO - this needs to handle multiple potential Warning headers`. -/
def strip_warning_1xx (res : Response) : Except Err Response :=
  match headerFirst "warning" res.headers with
  | none => .ok res
  | some w =>
    match w.toList.takeWhile Char.isDigit with
    | [] => .error .parseIntFailure
    | ds =>
      let code := digitsVal ds
      if code < 2 ^ 32 then
        if 100 ≤ code ∧ code < 200 then
          .ok { res with headers := headerRemove "warning" res.headers }
        else .ok res
      else .error .parseIntFailure

/-- The `Cacache` middleware state (src/src/cache.rs lines 45-49 as the
struct is *used*; the declared struct lists only `mode` and `path`, while the
body of `send` reads `self.cache_mode`, `self.cache` and `self.headers`).

`is_stale` and `send_conditional` are `unimplemented!()` in the source
(lines 121-123 and 168-178); following the spec, which defines only their
contracts, they are carried as explicit function-valued fields.  `remote` is
the hyper client that `send_remote` constructs (an external transport). -/
structure Cacache where
  cache_mode : CacheMode
  cache : Option Store
  headers : List (String × String)
  is_stale : Response → Bool
  send_conditional : Request → Response → Except Err Response
  remote : Request → Except Err Response

/-- `Cacache::send_remote` (src/src/cache.rs lines 149-165): send the request
on the middleware's own network path, without consulting the cache.  Emits a
`remote` event. -/
def Cacache.send_remote (c : Cacache) (req : Request) : Eff Response :=
  ⟨[Ev.remote req.url], c.remote req⟩

/-- The network fallback tail of `Cacache::send` (src/src/cache.rs lines
251-258): take the cache out, send remotely, and when the response is
cacheable and a cache is present persist it under the canonical key,
returning the re-read entry. -/
def Cacache.network (c : Cacache) (mode : CacheMode) (req : Request) :
    Eff Response :=
  Eff.bind (c.send_remote req) fun res =>
    if response_cacheable mode res then
      match c.cache with
      | some _ =>
        ⟨[Ev.cachePut (cache_key req)], .ok (responseOfEntry (entryOf res))⟩
      | none => Eff.pure res
    else Eff.pure res

/-- `Cacache::send` (src/src/cache.rs lines 181-259).  In order: merge
`self.headers` into the request headers; coerce the mode to `NoStore` when it
is `Default` and a conditional header is present; when the request is
cacheable and a store is configured, look the key up (a `cacheLookup` event);
on a hit strip 1xx warnings, then serve fresh `Default` entries directly,
revalidate under `Default`/`NoCache`, and serve `ForceCache`/`OnlyIfCached`
entries with a `112 Disconnected operation` warning; on a miss under
`OnlyIfCached` the source executes
`panic!("cache mode is OnlyIfCached, but no cached response found")`
(lines 245-248, with the comment `TODO - do an error instead`); every other
path falls through to the network tail.  The `client` and `next` parameters
of the source are unused by its body and are omitted here. -/
def Cacache.send (c : Cacache) (req0 : Request) : Eff Response :=
  let req : Request := { req0 with headers := insertAll c.headers req0.headers }
  let mode : CacheMode :=
    if c.cache_mode = CacheMode.Default ∧ has_cond_header req.headers then
      CacheMode.NoStore
    else c.cache_mode
  if request_cacheable mode req then
    match c.cache with
    | some store =>
      Eff.bind ⟨[Ev.cacheLookup (cache_key req)], .ok (matched store req)⟩
        fun found =>
          match found with
          | some res0 =>
            match strip_warning_1xx res0 with
            | .error e => Eff.fail e
            | .ok res =>
              if mode = CacheMode.Default ∧ c.is_stale res = false then
                Eff.pure res
              else if mode = CacheMode.Default ∨ mode = CacheMode.NoCache then
                ⟨[], c.send_conditional req res⟩
              else if mode = CacheMode.ForceCache ∨ mode = CacheMode.OnlyIfCached then
                Eff.pure (set_warning res 112 "Disconnected operation")
              else c.network mode req
          | none =>
            if mode = CacheMode.OnlyIfCached then
              Eff.fail (.panicked
                "cache mode is OnlyIfCached, but no cached response found")
            else c.network mode req
    | none => c.network mode req
  else c.network mode req

/-! ## Compression middleware (src/src/middleware/compression/compression.rs) -/

/-- The content encodings known to the compression middleware
(`accept_encoding::Encoding`). -/
inductive Encoding where
  | gzip
  | deflate
  | brotli
  | zstd
  | identity
  deriving DecidableEq, Repr

/-- `Compression::parse_encoding` (compression.rs lines 21-30): exact token
match; an unrecognized token is an `UnsupportedContentEncoding` error. -/
def parse_encoding : String → Except Err Encoding
  | "gzip" => .ok .gzip
  | "deflate" => .ok .deflate
  | "br" => .ok .brotli
  | "zstd" => .ok .zstd
  | "identity" => .ok .identity
  | _ => .error .unsupportedContentEncoding

/-- The header-value parse of `Compression::decode` (compression.rs lines
41-45): split on commas, trim whitespace, reverse (decodings are applied in
reverse order), parse each token, short-circuiting on the first error.  The
returned list is in decode order. -/
def parseContentEncoding (hval : String) : Except Err (List Encoding) :=
  ((splitCommaTrim hval).reverse).mapM parse_encoding

/-- The four body decoders (`async_compression`'s `GzipDecoder`,
`DeflateDecoder`, `BrotliDecoder`, `ZstdDecoder`: external collaborators),
supplied as functions on byte lists. -/
structure Codecs where
  gunzip : List Nat → List Nat
  inflate : List Nat → List Nat
  unbrotli : List Nat → List Nat
  unzstd : List Nat → List Nat

/-- One step of the decoder loop of `Compression::decode` (compression.rs
lines 51-75): replace the body with the decoder's output; `identity` is a
no-op. -/
def decodeOne (cz : Codecs) (e : Encoding) (b : List Nat) : List Nat :=
  match e with
  | .gzip => cz.gunzip b
  | .deflate => cz.inflate b
  | .brotli => cz.unbrotli b
  | .zstd => cz.unzstd b
  | .identity => b

/-- `Compression::decode` (compression.rs lines 32-80): when no
`Content-Encoding` header is present the response is returned unchanged;
otherwise parse the header value, apply the decoders in decode order to the
body, and strip the `Content-Encoding` header. -/
def Compression.decode (cz : Codecs) (res : Response) : Except Err Response :=
  match headerFirst "content-encoding" res.headers with
  | none => .ok res
  | some hval =>
    match parseContentEncoding hval with
    | .error e => .error e
    | .ok encodings =>
      .ok { res with
            body := encodings.foldl (fun b e => decodeOne cz e b) res.body,
            headers := headerRemove "content-encoding" res.headers }

/-- An encoder family for stating the round-trip property: `enc e` compresses
a body with encoding `e`.  `Inverts enc cz` says each decoder of `cz` undoes
the corresponding encoder (and that `identity` is a no-op, since its decode
step is). -/
def appliedInOrder (enc : Encoding → List Nat → List Nat)
    (chain : List Encoding) (b : List Nat) : List Nat :=
  chain.foldl (fun acc e => enc e acc) b

/-- See `appliedInOrder`. -/
def Inverts (enc : Encoding → List Nat → List Nat) (cz : Codecs) : Prop :=
  ∀ e b, decodeOne cz e (enc e b) = b

/-! ## Client middleware registration (src/src/client.rs lines 203-208)

`Client::with` calls `Arc::get_mut(&mut self.middleware)`, which yields the
vector exactly when the `Arc` is not shared, and otherwise panics through
`.expect(..)`.  The model tracks the number of *other* live references to the
middleware `Arc` (`extraRefs`, the strong count minus one): `Client::send`
(lines 226-237) clones the `Arc` for the duration of the call and drops the
clone when the returned future completes, so a completed sequential send
leaves the count where it started. -/

/-- The registration-relevant state of a `Client`: its middleware names and
the number of other live references to the middleware `Arc`. -/
structure ClientRc where
  middleware : List String
  extraRefs : Nat
  deriving DecidableEq, Repr

/-- `Client::with` (src/src/client.rs lines 203-208): append when uniquely
referenced, else panic with the `.expect` message. -/
def ClientRc.withMw (c : ClientRc) (m : String) : Except Err ClientRc :=
  if c.extraRefs = 0 then .ok { c with middleware := c.middleware ++ [m] }
  else .error (.panicked
    "Registering middleware is not possible after the Client has been used")

/-- The reference `Client::send` takes on the middleware `Arc` when it starts
(src/src/client.rs line 227). -/
def ClientRc.sendAcquire (c : ClientRc) : ClientRc :=
  { c with extraRefs := c.extraRefs + 1 }

/-- The drop of that reference when the send future completes. -/
def ClientRc.sendRelease (c : ClientRc) : ClientRc :=
  { c with extraRefs := c.extraRefs - 1 }

/-- A sequential, completed `Client::send` as observed by the reference
count: acquire then release. -/
def ClientRc.sendCompleted (c : ClientRc) : ClientRc :=
  c.sendAcquire.sendRelease

/-! ## Statement helpers and concrete inputs -/

/-- Data of one generic wrapping middleware: marker name, request transform,
response transform. -/
abbrev Wrap := String × (Request → Request) × (Response → Response)

/-- The middleware list of a list of wraps. -/
def wrapsOf (ws : List Wrap) : List Middleware :=
  ws.map fun w => Middleware.wrap w.1 w.2.1 w.2.2

/-- The request after all `pre` transforms, outside-in. -/
def presOf (ws : List Wrap) (req : Request) : Request :=
  ws.foldl (fun r w => w.2.1 r) req

/-- The response after all `post` transforms, inside-out. -/
def postsOf (ws : List Wrap) (res : Response) : Response :=
  ws.foldr (fun w r => w.2.2 r) res

/-- The `enter` markers, outside-in. -/
def entersOf (ws : List Wrap) : List Ev :=
  ws.map fun w => Ev.enter w.1

/-- The `leave` markers, inside-out. -/
def leavesOf (ws : List Wrap) : List Ev :=
  ws.reverse.map fun w => Ev.leave w.1

/-- Iterate a URL rewriting function. -/
def iterUrl (f : String → String) : Nat → String → String
  | 0, u => u
  | n + 1, u => iterUrl f n (f u)

/-- The trace of `n` redirect probe sends starting at URL `u`, each probe
followed by the rewrite `f`. -/
def probeTrace (f : String → String) : Nat → String → List Ev
  | 0, _ => []
  | n + 1, u => Ev.transport u :: probeTrace f n (f u)

/-- A transport that always redirects (302) to the relative reference
`/foo`. -/
def transportRel302 : Transport :=
  fun _ => .ok ⟨302, [("location", "/foo")], []⟩

/-- A `Client::send` capability that is never used. -/
def noSend : Client → Request → Eff Response :=
  fun _ _ => Eff.fail .outOfGas

/-- A transport returning a fixed 200 response with body `[5]`. -/
def transportOk5 : Transport :=
  fun _ => .ok ⟨200, [], [5]⟩

/-- A concrete GET request. -/
def reqA : Request := ⟨"GET", "http://example.com/a", [], []⟩

/-- A concrete GET request with no matching cache entry. -/
def reqM : Request := ⟨"GET", "http://example.com/m", [], []⟩

/-- A concrete GET request carrying a conditional header. -/
def reqCond : Request :=
  ⟨"GET", "http://example.com/c", [("if-none-match", "abc")], []⟩

/-- A concrete stored cache entry. -/
def entryHit : CacheEntry := ⟨200, [("x-a", "1")], [1]⟩

/-- A `Cacache` in `OnlyIfCached` mode over an *empty* store. -/
def cacheOnlyIfCachedEmpty : Cacache :=
  ⟨CacheMode.OnlyIfCached, some [], [], fun _ => false, fun _ r => .ok r,
   fun _ => .ok ⟨200, [], []⟩⟩

/-- A `Cacache` in `NoCache` mode whose store holds an entry for `reqCond`. -/
def cacheNoCacheCond : Cacache :=
  ⟨CacheMode.NoCache, some [("surf:req:v1:http://example.com/c", entryHit)],
   [], fun _ => false, fun _ r => .ok r, fun _ => .ok ⟨200, [], []⟩⟩

/-- A cached response carrying a 1xx warning first and a 2xx warning second. -/
def resWarn110First : Response :=
  ⟨200, [("warning", "110 - stale"), ("warning", "214 transformed")], []⟩

/-- A cached response carrying a 2xx warning first and a 1xx warning second. -/
def resWarn214First : Response :=
  ⟨200, [("warning", "214 transformed"), ("warning", "110 - stale")], []⟩

/-- Tag bytes of the toy witness codecs. -/
def encTag : Encoding → Nat
  | .gzip => 1
  | .deflate => 2
  | .brotli => 3
  | .zstd => 4
  | .identity => 0

/-- Toy witness encoders: prepend the tag byte (identity encodes to itself). -/
def encW (e : Encoding) (b : List Nat) : List Nat :=
  match e with
  | .identity => b
  | _ => encTag e :: b

/-- Toy witness decoders: drop the tag byte. -/
def czW : Codecs := ⟨List.tail, List.tail, List.tail, List.tail⟩

/-- A response whose body was encoded with brotli then gzip
(`Content-Encoding: br, gzip`), under the toy witness codecs. -/
def resEncW : Response :=
  ⟨200, [("content-encoding", "br, gzip"), ("x", "y")], [1, 3, 7]⟩

/-- A `Cacache` in `Default` mode with a store and a remote transport. -/
def cacheDefaultW : Cacache :=
  ⟨CacheMode.Default, some [("surf:req:v1:http://example.com/c", entryHit)],
   [], fun _ => false, fun _ r => .ok r, fun _ => .ok ⟨200, [], [9]⟩⟩

/-- A transport that always redirects (302) to the fixed absolute URL
`http://r.example/x`. -/
def redirTargetW : String → String := fun _ => "http://r.example/x"

/-- The always-redirecting response family for `redirTargetW`. -/
def respRedirW (r : Request) : Response :=
  ⟨302, [("location", redirTargetW r.url)], []⟩

/-- The transport realizing `respRedirW`. -/
def transportRedirW : Transport := fun r => .ok (respRedirW r)

end Surf

/-! ## Lemmas -/

namespace Surf

theorem Eff_bind_mk_ok {α β : Type} (tr : List Ev) (a : α) (f : α → Eff β) :
    Eff.bind ⟨tr, .ok a⟩ f = ⟨tr ++ (f a).trace, (f a).result⟩ := rfl

theorem Eff_bind_mk_error {α β : Type} (tr : List Ev) (e : Err) (f : α → Eff β) :
    Eff.bind ⟨tr, .error e⟩ f = ⟨tr, .error e⟩ := rfl

theorem runList_nil (sf : Client → Request → Eff Response)
    (ep : Request → Client → Eff Response) (req : Request) (c : Client) :
    runList sf [] ep req c = ep req c := rfl

theorem runList_cons (sf : Client → Request → Eff Response) (m : Middleware)
    (rest : List Middleware) (ep : Request → Client → Eff Response)
    (req : Request) (c : Client) :
    runList sf (m :: rest) ep req c =
      handleWith sf m req c (runList sf rest ep) := rfl

theorem handleWith_wrap (sf : Client → Request → Eff Response) (name : String)
    (pre : Request → Request) (post : Response → Response) (req : Request)
    (c : Client) (runRest : Request → Client → Eff Response) :
    handleWith sf (.wrap name pre post) req c runRest =
      match (runRest (pre req) c).result with
      | .ok res =>
        ⟨Ev.enter name :: ((runRest (pre req) c).trace ++ [Ev.leave name]),
         .ok (post res)⟩
      | .error e =>
        ⟨Ev.enter name :: (runRest (pre req) c).trace, .error e⟩ := rfl

/-- The onion shape of a chain of generic wrapping middleware: the `pre`
transforms compose outside-in into the request the endpoint sees, the `post`
transforms compose inside-out on its response, and the markers bracket the
endpoint's trace symmetrically (no `leave` markers when the endpoint
fails). -/
theorem runList_wrapsOf (sf : Client → Request → Eff Response)
    (ws : List Wrap) (ep : Request → Client → Eff Response)
    (req : Request) (c : Client) :
    runList sf (wrapsOf ws) ep req c =
      match (ep (presOf ws req) c).result with
      | .ok res =>
        ⟨entersOf ws ++ (ep (presOf ws req) c).trace ++ leavesOf ws,
         .ok (postsOf ws res)⟩
      | .error e =>
        ⟨entersOf ws ++ (ep (presOf ws req) c).trace, .error e⟩ := by
  induction ws generalizing req with
  | nil =>
    simp only [wrapsOf, List.map_nil, runList_nil, presOf, List.foldl_nil,
      postsOf, List.foldr_nil, entersOf, leavesOf, List.reverse_nil,
      List.nil_append, List.append_nil]
    cases h : ep req c with
    | mk tr r => cases r <;> simp [h]
  | cons w ws ih =>
    rw [show wrapsOf (w :: ws) = Middleware.wrap w.1 w.2.1 w.2.2 :: wrapsOf ws
          from rfl,
       runList_cons, handleWith_wrap, ih (w.2.1 req)]
    simp only [presOf, List.foldl_cons, postsOf, List.foldr_cons,
      entersOf, List.map_cons, leavesOf, List.reverse_cons, List.map_append,
      List.map_cons, List.map_nil]
    cases hres : (ep (List.foldl (fun r w => w.2.1 r) (w.2.1 req) ws) c).result with
    | ok res => simp [hres]
    | error e => simp [hres]

/-- Unfolding `Client::send` one gas step. -/
theorem client_send_succ (gas : Nat) (client : Client)
    (reqMw : Option (List Middleware)) (req : Request) :
    Client.send (gas + 1) client reqMw req =
      runList (fun c r => Client.send gas c none r)
        (effectiveStack client reqMw) endpoint req (eraseMiddleware client) := rfl

/-- A send on a middleware-free client is exactly one transport call. -/
theorem send_no_middleware (gas : Nat) (t : Transport) (req : Request) :
    Client.send (gas + 1) ⟨[], t⟩ none req = ⟨[Ev.transport req.url], t req⟩ := rfl

theorem countTransport_append (a b : List Ev) :
    countTransport (a ++ b) = countTransport a + countTransport b := by
  simp [countTransport, List.filter_append]

theorem countTransport_entersOf (ws : List Wrap) :
    countTransport (entersOf ws) = 0 := by
  induction ws with
  | nil => rfl
  | cons w ws ih => simpa [entersOf, countTransport] using ih

theorem countTransport_leavesOf (ws : List Wrap) :
    countTransport (leavesOf ws) = 0 := by
  induction ws with
  | nil => rfl
  | cons w ws ih =>
    simp only [leavesOf, List.reverse_cons, List.map_append, List.map_cons,
      List.map_nil] at *
    simp [countTransport_append, countTransport, ih]
    simpa [countTransport] using ih

theorem countTransport_probeTrace (f : String → String) :
    ∀ (n : Nat) (u : String), countTransport (probeTrace f n u) = n := by
  intro n
  induction n with
  | zero => intro u; rfl
  | succ n ih => intro u; simp [probeTrace, countTransport] at *; exact ih (f u)

/-- In the redirect probe loop over a middleware-free client whose transport
always answers with a redirect (status in the redirect set, a single
`Location` value rewriting the URL by `f`, always absolute), the loop runs
its full budget: `n` probes, each recorded as one transport event, and the
request URL after the loop is the `n`-fold rewrite. -/
theorem redirectLoop_always_redirect
    (gas : Nat) (t : Transport) (resp : Request → Response) (f : String → String)
    (ht : ∀ r, t r = .ok (resp r))
    (hstatus : ∀ r, redirectCodes.contains (resp r).status = true)
    (hloc : ∀ r, headerAll "location" (resp r).headers = [f r.url])
    (habs : ∀ u, isAbsoluteUrl (f u) = true) :
    ∀ (n : Nat) (req : Request),
      redirectLoop (fun c r => Client.send (gas + 1) c none r) n req ⟨[], t⟩ =
        ⟨probeTrace f n req.url, .ok { req with url := iterUrl f n req.url }⟩ := by
  intro n
  induction n with
  | zero => intro req; simp [redirectLoop, probeTrace, iterUrl, Eff.pure]
  | succ n ih =>
    intro req
    simp only [redirectLoop]
    rw [send_no_middleware, ht, Eff_bind_mk_ok]
    simp only [hstatus, if_true, hloc]
    rw [show lastOf (f req.url) [] = f req.url from rfl]
    simp only [urlParse, habs, if_true]
    rw [ih { req with url := f req.url }]
    simp [probeTrace, iterUrl]

end Surf

namespace Surf

theorem headerFirst_headerRemove (name : String) (hs : Headers) :
    headerFirst name (headerRemove name hs) = none := by
  induction hs with
  | nil => rfl
  | cons kv hs ih =>
    simp only [headerRemove, List.filter_cons] at *
    cases h : (kv.1 == name) with
    | true => simp [h]; exact ih
    | false => simp [headerFirst, List.find?_cons, h]

/-- Decoding in reverse list order undoes encoding in list order. -/
theorem foldl_decode_encode (cz : Codecs) (enc : Encoding → List Nat → List Nat)
    (hinv : Inverts enc cz) :
    ∀ (chain : List Encoding) (b : List Nat),
      (chain.reverse).foldl (fun acc e => decodeOne cz e acc)
        (appliedInOrder enc chain b) = b := by
  intro chain
  induction chain with
  | nil => intro b; simp [appliedInOrder]
  | cons e l ih =>
    intro b
    simp only [appliedInOrder, List.foldl_cons, List.reverse_cons,
      List.foldl_append, List.foldl_cons, List.foldl_nil] at *
    rw [ih (enc e b), hinv]

/-- C1: `Client::send` builds the effective stack as client middleware
followed by the per-request middleware and drives it in onion order: with
client middleware `[A, B]` and request middleware `[C]`, `A` wraps `B` wraps
`C` wraps the terminal transport call — the request is transformed
outside-in (`preA`, `preB`, `preC`) before the single transport call, the
response inside-out (`postC`, `postB`, `postA`), and the markers show each
middleware entered in stack order and left in reverse order around the one
`transport` event. -/
theorem client_send_onion_order (nA nB nC : String)
    (preA preB preC : Request → Request)
    (postA postB postC : Response → Response) (t : Transport) (req : Request)
    (gas : Nat) (resp : Response)
    (ht : t (preC (preB (preA req))) = .ok resp) :
    (∀ (client : Client) (rmw : List Middleware) (r : Request),
       Client.send (gas + 1) client (some rmw) r =
         runList (fun c x => Client.send gas c none x)
           (client.middleware ++ rmw) endpoint r (eraseMiddleware client))
    ∧ Client.send (gas + 1)
        ⟨[Middleware.wrap nA preA postA, Middleware.wrap nB preB postB], t⟩
        (some [Middleware.wrap nC preC postC]) req =
      ⟨[Ev.enter nA, Ev.enter nB, Ev.enter nC,
        Ev.transport (preC (preB (preA req))).url,
        Ev.leave nC, Ev.leave nB, Ev.leave nA],
       .ok (postA (postB (postC resp)))⟩ := by
  constructor
  · intro client rmw r; rfl
  · have h := runList_wrapsOf (fun c x => Client.send gas c none x)
      [(nA, preA, postA), (nB, preB, postB), (nC, preC, postC)] endpoint req
      ⟨[], t⟩
    rw [client_send_succ]
    rw [show effectiveStack
          ⟨[Middleware.wrap nA preA postA, Middleware.wrap nB preB postB], t⟩
          (some [Middleware.wrap nC preC postC]) =
        wrapsOf [(nA, preA, postA), (nB, preB, postB), (nC, preC, postC)]
        from rfl]
    rw [show eraseMiddleware
          ⟨[Middleware.wrap nA preA postA, Middleware.wrap nB preB postB], t⟩ =
        (⟨[], t⟩ : Client) from rfl]
    rw [h]
    simp [presOf, postsOf, entersOf, leavesOf, endpoint, ht]

/-- Witness for `client_send_onion_order` at identity transforms over
`transportOk5`. -/
theorem client_send_onion_order_witness :
    transportOk5 reqA = .ok ⟨200, [], [5]⟩
    ∧ Client.send 1
        ⟨[Middleware.wrap "A" id id, Middleware.wrap "B" id id], transportOk5⟩
        (some [Middleware.wrap "C" id id]) reqA =
      ⟨[Ev.enter "A", Ev.enter "B", Ev.enter "C",
        Ev.transport "http://example.com/a",
        Ev.leave "C", Ev.leave "B", Ev.leave "A"],
       .ok ⟨200, [], [5]⟩⟩ :=
  ⟨rfl,
   (client_send_onion_order "A" "B" "C" id id id id id id transportOk5 reqA 0
      ⟨200, [], [5]⟩ rfl).2⟩

/-- C2: a GET under `OnlyIfCached` with no entry in the store makes
`Cacache::send` execute
`panic!("cache mode is OnlyIfCached, but no cached response found")`
(src/src/cache.rs lines 245-248) instead of returning a typed error; the
source marks the spot `TODO - do an error instead`. -/
theorem cache_only_if_cached_miss_panics :
    (Cacache.send cacheOnlyIfCachedEmpty reqM).result =
      .error (.panicked "cache mode is OnlyIfCached, but no cached response found") := by
  decide

end Surf

namespace Surf

theorem handleWith_redirect (sf : Client → Request → Eff Response) (n : Nat)
    (req : Request) (c : Client) (runRest : Request → Client → Eff Response) :
    handleWith sf (.redirect n) req c runRest =
      Eff.bind (redirectLoop sf n req c) (fun req' => runRest req' c) := rfl

/-- C3: against a transport that always answers with a redirect status from
{301, 302, 303, 307, 308} and an absolute `Location` rewriting the URL by
`f`, the Redirect middleware with attempt budget `N` performs exactly `N`
probe sends (one transport event each, following each hop), then hands the
rewritten request to the rest of the chain whose outcome is returned as is;
budget exhaustion is no error — with nothing after the middleware, the final
still-redirecting response comes back unmodified to the caller. -/
theorem redirect_exact_budget_then_forwards (gas N : Nat) (t : Transport)
    (resp : Request → Response) (f : String → String) (rest : List Middleware)
    (req : Request)
    (ht : ∀ r, t r = .ok (resp r))
    (hstatus : ∀ r, redirectCodes.contains (resp r).status = true)
    (hloc : ∀ r, headerAll "location" (resp r).headers = [f r.url])
    (habs : ∀ u, isAbsoluteUrl (f u) = true) :
    (Client.send (gas + 2) ⟨Middleware.redirect N :: rest, t⟩ none req =
       Eff.bind
         ⟨probeTrace f N req.url, .ok { req with url := iterUrl f N req.url }⟩
         (fun req' => runList (fun c r => Client.send (gas + 1) c none r) rest
            endpoint req' ⟨[], t⟩))
    ∧ countTransport (probeTrace f N req.url) = N
    ∧ Client.send (gas + 2) ⟨[Middleware.redirect N], t⟩ none req =
        ⟨probeTrace f N req.url ++ [Ev.transport (iterUrl f N req.url)],
         .ok (resp { req with url := iterUrl f N req.url })⟩ := by
  refine ⟨?_, countTransport_probeTrace f N req.url, ?_⟩
  · rw [client_send_succ, show effectiveStack
        ⟨Middleware.redirect N :: rest, t⟩ none = Middleware.redirect N :: rest
        from rfl, runList_cons, handleWith_redirect]
    simp only [eraseMiddleware]
    rw [redirectLoop_always_redirect gas t resp f ht hstatus hloc habs N req]
  · rw [client_send_succ, show effectiveStack ⟨[Middleware.redirect N], t⟩ none
        = [Middleware.redirect N] from rfl, runList_cons, handleWith_redirect]
    simp only [eraseMiddleware]
    rw [redirectLoop_always_redirect gas t resp f ht hstatus hloc habs N req,
      Eff_bind_mk_ok]
    simp [runList, endpoint, ht]

/-- Witness for `redirect_exact_budget_then_forwards`: budget 3 against a
transport that redirects every request to `http://r.example/x`. -/
theorem redirect_exact_budget_then_forwards_witness :
    transportRedirW reqA = .ok (respRedirW reqA)
    ∧ Client.send 2 ⟨[Middleware.redirect 3], transportRedirW⟩ none reqA =
        ⟨[Ev.transport "http://example.com/a",
          Ev.transport "http://r.example/x",
          Ev.transport "http://r.example/x",
          Ev.transport "http://r.example/x"],
         .ok ⟨302, [("location", "http://r.example/x")], []⟩⟩ := by
  have hstatus : ∀ r, redirectCodes.contains (respRedirW r).status = true :=
    fun _ => rfl
  have hloc : ∀ r, headerAll "location" (respRedirW r).headers =
      [redirTargetW r.url] := fun _ => rfl
  have habs : ∀ u, isAbsoluteUrl (redirTargetW u) = true := by
    intro u; simp only [redirTargetW]; decide
  refine ⟨rfl, ?_⟩
  have h := (redirect_exact_budget_then_forwards 0 3 transportRedirW respRedirW
    redirTargetW [] reqA (fun _ => rfl) hstatus hloc habs).2.2
  simpa [probeTrace, iterUrl, redirTargetW, reqA, respRedirW] using h

/-- C4 counterexample: a 302 response whose `Location` value is the relative
reference `/foo` is *not* accepted and resolved against the request URL: the
middleware's `Url::parse` fails and the typed error surfaces to the caller
immediately (the request URL is never replaced and the chain is not
continued). -/
theorem redirect_relative_location_errors :
    Client.send 2 ⟨[Middleware.redirect 3], transportRel302⟩ none reqA =
      ⟨[Ev.transport "http://example.com/a"],
       .error (.relativeUrlWithoutBase "/foo")⟩ := by decide

/-- C4 (amended): on a redirect status from {301, 302, 303, 307, 308} the
Redirect middleware parses the `Location` value as an *absolute* URL and
replaces the request URL with it; a `Location` value that does not parse as
an absolute URL (relative references included) yields a typed error — no
panic — that surfaces immediately, without consuming the remaining attempt
budget. -/
theorem redirect_location_absolute_or_error (gas n : Nat) (t : Transport)
    (req : Request) (res : Response) (loc : String)
    (ht : t req = .ok res)
    (hstatus : redirectCodes.contains res.status = true)
    (hloc : headerAll "location" res.headers = [loc]) :
    (isAbsoluteUrl loc = true →
       redirectLoop (fun c r => Client.send (gas + 1) c none r) 1 req ⟨[], t⟩ =
         ⟨[Ev.transport req.url], .ok { req with url := loc }⟩)
    ∧ (isAbsoluteUrl loc = false →
       redirectLoop (fun c r => Client.send (gas + 1) c none r) (n + 1) req
           ⟨[], t⟩ =
         ⟨[Ev.transport req.url], .error (.relativeUrlWithoutBase loc)⟩)
    ∧ (isAbsoluteUrl loc = false →
       Client.send (gas + 2) ⟨[Middleware.redirect (n + 1)], t⟩ none req =
         ⟨[Ev.transport req.url], .error (.relativeUrlWithoutBase loc)⟩) := by
  have hmem : res.status ∈ redirectCodes := by simpa using hstatus
  refine ⟨?_, ?_, ?_⟩
  · intro habs
    simp only [redirectLoop]
    rw [send_no_middleware, ht, Eff_bind_mk_ok]
    simp [hmem, hstatus, hloc, urlParse, habs, redirectLoop, Eff.pure,
      show lastOf loc [] = loc from rfl]
  · intro habs
    simp only [redirectLoop]
    rw [send_no_middleware, ht, Eff_bind_mk_ok]
    simp [hmem, hstatus, hloc, urlParse, habs, Eff.fail,
      show lastOf loc [] = loc from rfl]
  · intro habs
    rw [client_send_succ, show effectiveStack ⟨[Middleware.redirect (n + 1)], t⟩
          none = [Middleware.redirect (n + 1)] from rfl, runList_cons,
      handleWith_redirect]
    simp only [eraseMiddleware, redirectLoop]
    rw [send_no_middleware, ht, Eff_bind_mk_ok]
    simp [hmem, hstatus, hloc, urlParse, habs, Eff.fail,
      show lastOf loc [] = loc from rfl, Eff.bind]

/-- Witness for `redirect_location_absolute_or_error` at the relative
reference `/foo`. -/
theorem redirect_location_absolute_or_error_witness :
    isAbsoluteUrl "/foo" = false
    ∧ Client.send 2 ⟨[Middleware.redirect 3], transportRel302⟩ none reqA =
        ⟨[Ev.transport "http://example.com/a"],
         .error (.relativeUrlWithoutBase "/foo")⟩ :=
  ⟨by decide,
   (redirect_location_absolute_or_error 0 2 transportRel302 reqA
      ⟨302, [("location", "/foo")], []⟩ "/foo" rfl (by decide) rfl).2.2
     (by decide)⟩

/-- C5: when `Content-Encoding` parses to a chain of supported encodings, the
Compression middleware applies the decoders in reverse list order, so a body
built by applying the encodings in list order decodes back to the original
plaintext, and the returned response carries no `Content-Encoding` header;
when the header is absent the response is returned unchanged. -/
theorem compression_reverse_order_roundtrip (cz : Codecs)
    (enc : Encoding → List Nat → List Nat) (hinv : Inverts enc cz)
    (res : Response) (hval : String) (ds : List Encoding) (plain : List Nat)
    (hhdr : headerFirst "content-encoding" res.headers = some hval)
    (hparse : parseContentEncoding hval = .ok ds)
    (hbody : res.body = appliedInOrder enc ds.reverse plain) :
    (Compression.decode cz res =
       .ok ⟨res.status, headerRemove "content-encoding" res.headers, plain⟩)
    ∧ headerFirst "content-encoding"
        (headerRemove "content-encoding" res.headers) = none
    ∧ (∀ r : Response, headerFirst "content-encoding" r.headers = none →
         Compression.decode cz r = .ok r) := by
  refine ⟨?_, headerFirst_headerRemove _ _, ?_⟩
  · have hfold := foldl_decode_encode cz enc hinv ds.reverse plain
    rw [List.reverse_reverse] at hfold
    simp [Compression.decode, hhdr, hparse, hbody, hfold]
  · intro r hr
    simp [Compression.decode, hr]

/-- Witness for `compression_reverse_order_roundtrip`: `Content-Encoding:
br, gzip` over the toy tag codecs. -/
theorem compression_reverse_order_roundtrip_witness :
    Inverts encW czW
    ∧ parseContentEncoding "br, gzip" = .ok [Encoding.gzip, Encoding.brotli]
    ∧ Compression.decode czW resEncW = .ok ⟨200, [("x", "y")], [7]⟩ := by
  have hinv : Inverts encW czW := fun e b => by cases e <;> rfl
  refine ⟨hinv, by decide, ?_⟩
  have h := (compression_reverse_order_roundtrip czW encW hinv resEncW
    "br, gzip" [Encoding.gzip, Encoding.brotli] [7] rfl (by decide) rfl).1
  simpa [resEncW, headerRemove] using h

end Surf

namespace Surf

/-- C6: `Next::run` consumes exactly one position per call — a non-empty view
hands the head middleware a `Next` narrowed to the tail, the empty view
invokes the terminal function — and the recursion is single-pass and
non-branching: over any chain of middleware that delegate exactly once, the
terminal transport call happens exactly once; running the chain twice takes
explicit cooperation, as the `Doubler` example shows (two transport
events). -/
theorem next_run_consumes_one_single_pass :
    (∀ (sf : Client → Request → Eff Response) (m : Middleware)
       (rest : List Middleware) (ep : Request → Client → Eff Response)
       (req : Request) (c : Client),
       Next.run sf ⟨m :: rest, ep⟩ req c =
         Middleware.handle sf m req c ⟨rest, ep⟩)
    ∧ (∀ (sf : Client → Request → Eff Response)
         (ep : Request → Client → Eff Response) (req : Request) (c : Client),
       Next.run sf ⟨[], ep⟩ req c = ep req c)
    ∧ (∀ (sf : Client → Request → Eff Response) (ws : List Wrap)
         (req : Request) (c : Client),
       countTransport (runList sf (wrapsOf ws) endpoint req c).trace = 1)
    ∧ countTransport
        (runList noSend [Middleware.doubler] endpoint reqA
          ⟨[], transportOk5⟩).trace = 2 := by
  refine ⟨fun sf m rest ep req c => rfl, fun _ _ _ _ => rfl, ?_, by decide⟩
  intro sf ws req c
  rw [runList_wrapsOf]
  cases hres : (endpoint (presOf ws req) c).result with
  | ok res =>
    show countTransport
      (entersOf ws ++ (endpoint (presOf ws req) c).trace ++ leavesOf ws) = 1
    rw [countTransport_append, countTransport_append,
      countTransport_entersOf, countTransport_leavesOf]
    rfl
  | error e =>
    show countTransport (entersOf ws ++ (endpoint (presOf ws req) c).trace) = 1
    rw [countTransport_append, countTransport_entersOf]
    rfl

/-- C7 counterexample: with configured mode `NoCache` (not `Default`) and an
`If-None-Match` header on the request, the mode is *not* coerced to `NoStore`
and the cache *is* consulted — the send's trace records a store lookup. -/
theorem cache_cond_header_not_coerced_outside_default :
    Ev.cacheLookup "surf:req:v1:http://example.com/c" ∈
      (Cacache.send cacheNoCacheCond reqCond).trace := by decide

/-- C7 (amended): the conditional-header coercion applies only when the
configured mode is `Default` (src/src/cache.rs line 191 tests
`self.cache_mode == CacheMode::Default && has_cond_header(..)`); in that case
the request runs under `NoStore`: the whole send is one remote call, with no
store lookup and no store write. -/
theorem cache_cond_header_coerces_default_only (c : Cacache) (req : Request)
    (hmode : c.cache_mode = CacheMode.Default)
    (hcond : has_cond_header (insertAll c.headers req.headers) = true) :
    Cacache.send c req =
      ⟨[Ev.remote req.url],
       c.remote { req with headers := insertAll c.headers req.headers }⟩
    ∧ (∀ k, Ev.cacheLookup k ∉ (Cacache.send c req).trace)
    ∧ (∀ k, Ev.cachePut k ∉ (Cacache.send c req).trace) := by
  have hsend : Cacache.send c req =
      ⟨[Ev.remote req.url],
       c.remote { req with headers := insertAll c.headers req.headers }⟩ := by
    have hmode' : (if c.cache_mode = CacheMode.Default ∧
        has_cond_header (insertAll c.headers req.headers) = true then
        CacheMode.NoStore else c.cache_mode) = CacheMode.NoStore := by
      simp [hmode, hcond]
    simp only [Cacache.send, hmode']
    cases hr : c.remote { req with headers := insertAll c.headers req.headers } with
    | ok r =>
      simp [request_cacheable, Cacache.network, Cacache.send_remote,
        response_cacheable, Eff.bind, Eff.pure, hr]
    | error e =>
      simp [request_cacheable, Cacache.network, Cacache.send_remote,
        response_cacheable, Eff.bind, Eff.pure, hr]
  refine ⟨hsend, ?_, ?_⟩ <;> intro k <;> rw [hsend] <;> simp

/-- Witness for `cache_cond_header_coerces_default_only`: `Default` mode over
a populated store, request carrying `If-None-Match`. -/
theorem cache_cond_header_coerces_default_only_witness :
    cacheDefaultW.cache_mode = CacheMode.Default
    ∧ has_cond_header (insertAll cacheDefaultW.headers reqCond.headers) = true
    ∧ Cacache.send cacheDefaultW reqCond =
        ⟨[Ev.remote "http://example.com/c"], .ok ⟨200, [], [9]⟩⟩ := by
  refine ⟨rfl, by decide, ?_⟩
  have h := (cache_cond_header_coerces_default_only cacheDefaultW reqCond rfl
    (by decide)).1
  simpa [cacheDefaultW, reqCond, insertAll] using h

/-- C8: the Warning handling on a cache hit (src/src/cache.rs lines 196-222)
reads only the *first* `Warning` header value and then removes *all*
`Warning` headers: with a 1xx warning first and a 2xx warning second, the 2xx
warning is removed as well; with the 2xx warning first, the 1xx warning is
retained.  Both violate the strip-1xx/keep-2xx rule quoted in the source's
own RFC 7234 comment, and the source admits the gap
(`TODO - this needs to handle multiple potential Warning headers`). -/
theorem cache_warning_strip_multiple_headers_bug :
    strip_warning_1xx resWarn110First = .ok ⟨200, [], []⟩
    ∧ strip_warning_1xx resWarn214First = .ok resWarn214First := by
  constructor <;> decide

/-- C9 counterexample: after a *completed* send, the clone of the middleware
`Arc` taken by `Client::send` has been dropped, the list is again uniquely
referenced, and `Client::with` silently appends instead of failing. -/
theorem client_with_after_completed_send_appends :
    ClientRc.withMw (ClientRc.sendCompleted ⟨[], 0⟩) "m" = .ok ⟨["m"], 0⟩ := by
  decide

/-- C9 (amended): `Client::with` appends exactly when the middleware list is
not shared and panics exactly while it is shared — in particular while a send
is in flight; a completed send restores the count, so having sent requests
does not by itself make `with` fail. -/
theorem client_with_panics_iff_shared (c : ClientRc) (m : String) :
    (c.extraRefs = 0 →
       ClientRc.withMw c m = .ok { c with middleware := c.middleware ++ [m] })
    ∧ (0 < c.extraRefs →
       ClientRc.withMw c m = .error (.panicked
         "Registering middleware is not possible after the Client has been used"))
    ∧ ClientRc.withMw c.sendAcquire m = .error (.panicked
         "Registering middleware is not possible after the Client has been used")
    ∧ ClientRc.sendCompleted c = c := by
  refine ⟨fun h => by simp [ClientRc.withMw, h], fun h => ?_, ?_, ?_⟩
  · simp [ClientRc.withMw, Nat.pos_iff_ne_zero.mp h]
  · simp [ClientRc.withMw, ClientRc.sendAcquire]
  · simp [ClientRc.sendCompleted, ClientRc.sendAcquire, ClientRc.sendRelease]

/-- Witness for `client_with_panics_iff_shared` at a fresh client and at a
client whose list is shared by one in-flight send. -/
theorem client_with_panics_iff_shared_witness :
    (0 : Nat) = 0 ∧ 0 < (1 : Nat)
    ∧ ClientRc.withMw ⟨[], 0⟩ "m" = .ok ⟨["m"], 0⟩
    ∧ ClientRc.withMw ⟨[], 1⟩ "m" = .error (.panicked
        "Registering middleware is not possible after the Client has been used") :=
  ⟨rfl, by decide,
   by simpa using (client_with_panics_iff_shared ⟨[], 0⟩ "m").1 rfl,
   (client_with_panics_iff_shared ⟨[], 1⟩ "m").2.1 (by decide)⟩

/-- C10: `Client::send` hands the chain a middleware-erased client that
shares only the transport handle: the constructed `Next` is driven with
client `{ middleware := [], transport }`; a send on such a client is exactly
one transport call; hence a middleware that re-enters `client.send` on the
client it was given — as the Redirect middleware's probes do — reaches the
transport without running any middleware (no marker events). -/
theorem client_send_erases_middleware_stack :
    (∀ (gas : Nat) (client : Client) (reqMw : Option (List Middleware))
       (req : Request),
       Client.send (gas + 1) client reqMw req =
         Next.run (fun c r => Client.send gas c none r)
           ⟨effectiveStack client reqMw, endpoint⟩ req
           ⟨[], client.transport⟩)
    ∧ (∀ (gas : Nat) (t : Transport) (req : Request),
       Client.send (gas + 1) ⟨[], t⟩ none req = ⟨[Ev.transport req.url], t req⟩)
    ∧ (∀ (gas : Nat) (client : Client) (req : Request) (name : String),
       Ev.enter name ∉
         (Client.send (gas + 1) (eraseMiddleware client) none req).trace) := by
  refine ⟨fun _ _ _ _ => rfl, fun _ _ _ => rfl, ?_⟩
  intro gas client req name
  rw [show Client.send (gas + 1) (eraseMiddleware client) none req =
      ⟨[Ev.transport req.url], client.transport req⟩ from rfl]
  simp

end Surf
